import Mathlib

/-!
Shallow embedding of the nicotine reward-circuit simulation engine
(src/src/NicotinaCircuitV11.tsx).  Floating-point numbers are modelled
as real numbers; the engine is total over its inputs via clamping.
The driver state (`SimState`) collects the React state fields that the
engine operations read and write: nicotine level, both receptor pools,
the session clock `simMin` and the trace buffer.
-/

/-- Embedding of `clamp01 = (x) => Math.max(0, Math.min(1, x))`. -/
noncomputable def clamp01 (x : ℝ) : ℝ := max 0 (min 1 x)

/-- Embedding of the `ModelParams` record. -/
structure ModelParams where
  nicotineHalfLifeMin : ℝ
  actThreshold : ℝ
  desensRateDA : ℝ
  desensRateGABA : ℝ
  alpha7Threshold : ℝ
  desensWindowMin : ℝ

/-- Embedding of `DEFAULT_PARAMS`. -/
noncomputable def DEFAULT_PARAMS : ModelParams :=
  { nicotineHalfLifeMin := 120
    actThreshold := 0.15
    desensRateDA := 0.03
    desensRateGABA := 0.04
    alpha7Threshold := 0.08
    desensWindowMin := 45 }

/-- Embedding of the `ReceptorPool` record `{ basal, activado, desens }`. -/
structure ReceptorPool where
  basal : ℝ
  activado : ℝ
  desens : ℝ

/-- Embedding of `normalizePool`: divide by the component sum, resetting to
pure basal when the sum is non-positive. -/
noncomputable def normalizePool (p : ReceptorPool) : ReceptorPool :=
  let s := p.basal + p.activado + p.desens
  if s ≤ 0 then { basal := 1, activado := 0, desens := 0 }
  else { basal := p.basal / s, activado := p.activado / s, desens := p.desens / s }

/-- Embedding of `stepAlpha4b2`: sequential activation, desensitization and
recovery fluxes followed by renormalization. -/
noncomputable def stepAlpha4b2 (dtMin nic : ℝ) (pool : ReceptorPool)
    (params : ModelParams) (desensRate : ℝ) : ReceptorPool :=
  let recoverRate := 1 / max 1 params.desensWindowMin
  let nicDrive := clamp01 ((nic - params.actThreshold) / (1 - params.actThreshold))
  let toActive := pool.basal *
    (if nic > params.actThreshold then 0.25 * nicDrive else 0) * dtMin
  let b1 := pool.basal - toActive
  let a1 := pool.activado + toActive
  let toDesens := a1 * (if nic > params.actThreshold then desensRate else 0) * dtMin
  let a2 := a1 - toDesens
  let d1 := pool.desens + toDesens
  let k := if nic < params.actThreshold * 0.9 then recoverRate else recoverRate * 0.35
  let toBasal := d1 * k * dtMin
  let d2 := d1 - toBasal
  let b2 := b1 + toBasal
  normalizePool { basal := b2, activado := a2, desens := d2 }

/-- Embedding of the `ModelOut` record returned by `stepModel`. -/
structure ModelOut where
  nicotine : ℝ
  alpha7AchOn : Bool
  alpha7GluOn : Bool
  achDrive : ℝ
  gluDrive : ℝ
  poolDA : ReceptorPool
  poolGABA : ReceptorPool
  gaba : ℝ
  da : ℝ
  direct : ℝ
  indirect : ℝ

/-- Embedding of `stepModel`: puff bolus, exponential nicotine decay,
alpha7 gating, both pool updates and the pathway output formulas. -/
noncomputable def stepModel (dtMin nicotine : ℝ) (poolDA poolGABA : ReceptorPool)
    (puffNow : Bool) (params : ModelParams) : ModelOut :=
  let nic0 := if puffNow then clamp01 (nicotine + 0.25) else nicotine
  let decay := (0.5 : ℝ) ^ (dtMin / params.nicotineHalfLifeMin)
  let nic := clamp01 (nic0 * decay)
  let alpha7AchOn := decide (nic > params.alpha7Threshold)
  let alpha7GluOn := decide (nic > params.alpha7Threshold)
  let achDrive := clamp01 (0.35 + (if alpha7AchOn then 0.45 * nic else 0.05))
  let gluDrive := clamp01 (0.3 + (if alpha7GluOn then 0.55 * nic else 0.05))
  let nextPoolDA := stepAlpha4b2 dtMin nic poolDA params params.desensRateDA
  let nextPoolGABA := stepAlpha4b2 dtMin nic poolGABA params params.desensRateGABA
  let direct := clamp01 (0.15 + 0.95 * nextPoolDA.activado * (0.55 * achDrive + 0.65 * gluDrive))
  let gaba := clamp01 (0.25 + 0.95 * nextPoolGABA.activado - 0.85 * nextPoolGABA.desens)
  let indirect := clamp01 (0.15 + 0.9 * (1 - gaba))
  let da := clamp01 (0.1 + 0.75 * direct + 0.35 * indirect)
  { nicotine := nic, alpha7AchOn := alpha7AchOn, alpha7GluOn := alpha7GluOn,
    achDrive := achDrive, gluDrive := gluDrive, poolDA := nextPoolDA,
    poolGABA := nextPoolGABA, gaba := gaba, da := da, direct := direct,
    indirect := indirect }

/-- Embedding of one element of the `trace` array. -/
structure TracePoint where
  t : ℝ
  da : ℝ
  gaba : ℝ
  nic : ℝ
  desAll : ℝ
  puff : Bool

/-- The driver state held by the component: model state, session clock and
trace buffer. -/
structure SimState where
  nicotine : ℝ
  poolDA : ReceptorPool
  poolGABA : ReceptorPool
  simMin : ℝ
  trace : List TracePoint

/-- Embedding of `doPuff`: one step with `dtMin = 0` and `puffNow = true`. -/
noncomputable def doPuff (params : ModelParams) (s : SimState) : SimState :=
  let out := stepModel 0 s.nicotine s.poolDA s.poolGABA true params
  { s with nicotine := out.nicotine, poolDA := out.poolDA, poolGABA := out.poolGABA }

/-- Loop accumulator of `advance60`: the local variables `nic`, `pDA`, `pG`,
`t` and the `newTrace` array. -/
structure BatchAcc where
  nic : ℝ
  pDA : ReceptorPool
  pG : ReceptorPool
  t : ℝ
  newTrace : List TracePoint

/-- One iteration of the `advance60` loop body: one unit-minute step with
`puffNow = false` and one pushed trace point (whose `puff` field the source
hardcodes to `true`). -/
noncomputable def batchStep (params : ModelParams) (acc : BatchAcc) : BatchAcc :=
  let out := stepModel 1 acc.nic acc.pDA acc.pG false params
  let t := acc.t + 1
  let desAll := clamp01 (0.5 * out.poolDA.desens + 0.5 * out.poolGABA.desens)
  { nic := out.nicotine, pDA := out.poolDA, pG := out.poolGABA, t := t,
    newTrace := acc.newTrace ++
      [{ t := t, da := out.da, gaba := out.gaba, nic := out.nicotine,
         desAll := desAll, puff := true }] }

/-- `n` iterations of the `advance60` loop body. -/
noncomputable def batchRun (params : ModelParams) : ℕ → BatchAcc → BatchAcc
  | 0, acc => acc
  | n + 1, acc => batchStep params (batchRun params n acc)

/-- The loop accumulator at entry to the `advance60` loop. -/
noncomputable def initAcc (s : SimState) : BatchAcc :=
  { nic := s.nicotine, pDA := s.poolDA, pG := s.poolGABA, t := s.simMin,
    newTrace := [] }

/-- Embedding of `Array.prototype.slice(-n)`: keep the most recent `n`
elements. -/
def sliceLast (n : ℕ) (l : List TracePoint) : List TracePoint :=
  l.drop (l.length - n)

/-- The 60 trace points pushed by one `advance60` call. -/
noncomputable def advance60Points (params : ModelParams) (s : SimState) :
    List TracePoint :=
  (batchRun params 60 (initAcc s)).newTrace

/-- Embedding of `advance60`: 60 unit-minute steps with no puff, then one
atomic state update with the hard 900-point trace cap. -/
noncomputable def advance60 (params : ModelParams) (s : SimState) : SimState :=
  let r := batchRun params 60 (initAcc s)
  { nicotine := r.nic, poolDA := r.pDA, poolGABA := r.pG, simMin := r.t,
    trace := sliceLast 900 (s.trace ++ r.newTrace) }

/-- The trace point appended by one continuous-mode `tick`. -/
noncomputable def tickPoint (params : ModelParams) (s : SimState) (dtMin : ℝ)
    (puffNow : Bool) : TracePoint :=
  let out := stepModel dtMin s.nicotine s.poolDA s.poolGABA puffNow params
  { t := s.simMin + dtMin, da := out.da, gaba := out.gaba, nic := out.nicotine,
    desAll := clamp01 (0.5 * out.poolDA.desens + 0.5 * out.poolGABA.desens),
    puff := puffNow }

/-- Embedding of the continuous-mode `tick` body (with the puff decision
injected): one model step, one appended trace point, and the rolling
60-minute retention filter. -/
noncomputable def tick (params : ModelParams) (s : SimState) (dtMin : ℝ)
    (puffNow : Bool) : SimState :=
  let out := stepModel dtMin s.nicotine s.poolDA s.poolGABA puffNow params
  let next := s.trace ++ [tickPoint params s dtMin puffNow]
  let tMax := ((next.getLast?).map TracePoint.t).getD 0
  { nicotine := out.nicotine, poolDA := out.poolDA, poolGABA := out.poolGABA,
    simMin := s.simMin + dtMin,
    trace := next.filter (fun p => decide (tMax - 60 ≤ p.t)) }

/-- Embedding of the `abstinencia` preset initial state. -/
noncomputable def abstinenceState : SimState :=
  { nicotine := 0.02
    poolDA := normalizePool { basal := 0.35, activado := 0.05, desens := 0.6 }
    poolGABA := normalizePool { basal := 0.4, activado := 0.05, desens := 0.55 }
    simMin := 0
    trace := [] }

/-- The session default initial state (pure basal pools, no nicotine). -/
def initialState : SimState :=
  { nicotine := 0
    poolDA := { basal := 1, activado := 0, desens := 0 }
    poolGABA := { basal := 1, activado := 0, desens := 0 }
    simMin := 0
    trace := [] }

/-- Per-minute nicotine decay factor at the default 120-minute half-life. -/
noncomputable def cDecay : ℝ := (0.5 : ℝ) ^ ((1 : ℝ) / 120)

section Clamp01Lemmas

theorem clamp01_nonneg (x : ℝ) : 0 ≤ clamp01 x := le_max_left _ _

theorem clamp01_le_one (x : ℝ) : clamp01 x ≤ 1 :=
  max_le (by norm_num) (min_le_left _ _)

theorem clamp01_eq_self {x : ℝ} (h0 : 0 ≤ x) (h1 : x ≤ 1) : clamp01 x = x := by
  unfold clamp01
  rw [min_eq_right h1, max_eq_right h0]

theorem le_clamp01 {c x : ℝ} (hc : c ≤ 1) (hx : c ≤ x) : c ≤ clamp01 x := by
  unfold clamp01
  exact le_max_of_le_right (le_min hc hx)

end Clamp01Lemmas

section PoolLemmas

/-- The component sum of any normalized pool is exactly 1. -/
theorem normalizePool_sum (p : ReceptorPool) :
    (normalizePool p).basal + (normalizePool p).activado + (normalizePool p).desens = 1 := by
  unfold normalizePool
  by_cases h : p.basal + p.activado + p.desens ≤ 0
  · simp [h]
  · have hs : p.basal + p.activado + p.desens ≠ 0 := by
      push_neg at h
      exact ne_of_gt h
    simp only [h, if_false]
    field_simp

/-- A pool with non-positive raw sum resets to pure basal. -/
theorem normalizePool_reset (p : ReceptorPool)
    (h : p.basal + p.activado + p.desens ≤ 0) :
    normalizePool p = { basal := 1, activado := 0, desens := 0 } := by
  unfold normalizePool
  simp [h]

/-- Normalization preserves non-negativity of all three fractions. -/
theorem normalizePool_nonneg (p : ReceptorPool) (hb : 0 ≤ p.basal)
    (ha : 0 ≤ p.activado) (hd : 0 ≤ p.desens) :
    0 ≤ (normalizePool p).basal ∧ 0 ≤ (normalizePool p).activado ∧
      0 ≤ (normalizePool p).desens := by
  unfold normalizePool
  by_cases h : p.basal + p.activado + p.desens ≤ 0
  · simp [h]
  · push_neg at h
    simp only [not_le.mpr h, if_false]
    exact ⟨div_nonneg hb h.le, div_nonneg ha h.le, div_nonneg hd h.le⟩

/-- Normalizing a pool that already sums to 1 is the identity. -/
theorem normalizePool_sum_one {p : ReceptorPool}
    (h : p.basal + p.activado + p.desens = 1) : normalizePool p = p := by
  unfold normalizePool
  rw [h]
  norm_num

/-- The receptor-pool step always ends in `normalizePool`, so its output
sums to 1. -/
theorem stepAlpha4b2_sum (dtMin nic : ℝ) (pool : ReceptorPool)
    (params : ModelParams) (desensRate : ℝ) :
    (stepAlpha4b2 dtMin nic pool params desensRate).basal +
      (stepAlpha4b2 dtMin nic pool params desensRate).activado +
      (stepAlpha4b2 dtMin nic pool params desensRate).desens = 1 := by
  unfold stepAlpha4b2
  exact normalizePool_sum _

/-- With `dtMin = 0` every flux vanishes and the step is pure
renormalization. -/
theorem stepAlpha4b2_zero_dt (nic : ℝ) (pool : ReceptorPool) (ps : ModelParams)
    (rate : ℝ) : stepAlpha4b2 0 nic pool ps rate = normalizePool pool := by
  unfold stepAlpha4b2
  simp

/-- At default parameters, a unit-minute step with low nicotine (below the
recovery threshold 0.135) moves `desens / 45` back to `basal` and nothing
else. -/
theorem stepAlpha4b2_recovery (nic : ℝ) (pool : ReceptorPool) (rate : ℝ)
    (hn : nic < 0.135)
    (hsum : pool.basal + pool.activado + pool.desens = 1) :
    stepAlpha4b2 1 nic pool DEFAULT_PARAMS rate =
      { basal := pool.basal + pool.desens / 45
        activado := pool.activado
        desens := pool.desens * (44 / 45) } := by
  unfold stepAlpha4b2 DEFAULT_PARAMS
  have hgt : ¬ (nic > (0.15 : ℝ)) := by norm_num; linarith
  have hlow : nic < (0.15 : ℝ) * 0.9 := by norm_num; linarith
  simp only [hgt, if_false, if_pos hlow]
  have hmax : max (1 : ℝ) 45 = 45 := by norm_num
  rw [hmax]
  rw [normalizePool_sum_one (by dsimp only; linear_combination hsum)]
  congr 1 <;> ring

/-- Generic non-negativity of the three sequential flux updates, given that
each per-step transfer ratio does not exceed 1. -/
theorem pool_flux_nonneg (b a d f1 f2 k dt : ℝ)
    (hb : 0 ≤ b) (ha : 0 ≤ a) (hd : 0 ≤ d)
    (hf1 : 0 ≤ f1) (hf2 : 0 ≤ f2) (hk : 0 ≤ k) (hdt : 0 ≤ dt)
    (h1 : f1 * dt ≤ 1) (h2 : f2 * dt ≤ 1) (h3 : k * dt ≤ 1) :
    0 ≤ b - b * f1 * dt + (d + (a + b * f1 * dt) * f2 * dt) * k * dt ∧
    0 ≤ a + b * f1 * dt - (a + b * f1 * dt) * f2 * dt ∧
    0 ≤ d + (a + b * f1 * dt) * f2 * dt -
        (d + (a + b * f1 * dt) * f2 * dt) * k * dt := by
  have hbf : 0 ≤ b * f1 * dt := by positivity
  have ha1 : 0 ≤ a + b * f1 * dt := by linarith
  have hd1 : 0 ≤ d + (a + b * f1 * dt) * f2 * dt := by
    have h4 : 0 ≤ (a + b * f1 * dt) * f2 * dt := by positivity
    linarith
  refine ⟨?_, ?_, ?_⟩
  · have hb2 : b * f1 * dt ≤ b := by nlinarith
    have h5 : 0 ≤ (d + (a + b * f1 * dt) * f2 * dt) * k * dt := by positivity
    linarith
  · nlinarith [mul_nonneg ha1 (by linarith : (0:ℝ) ≤ 1 - f2 * dt)]
  · nlinarith [mul_nonneg hd1 (by linarith : (0:ℝ) ≤ 1 - k * dt)]

end PoolLemmas

section StepModelLemmas

theorem stepModel_nicotine (dtMin n : ℝ) (pDA pG : ReceptorPool) (puff : Bool)
    (ps : ModelParams) :
    (stepModel dtMin n pDA pG puff ps).nicotine =
      clamp01 ((if puff then clamp01 (n + 0.25) else n) *
        (0.5 : ℝ) ^ (dtMin / ps.nicotineHalfLifeMin)) := rfl

theorem stepModel_poolDA (dtMin n : ℝ) (pDA pG : ReceptorPool) (puff : Bool)
    (ps : ModelParams) :
    (stepModel dtMin n pDA pG puff ps).poolDA =
      stepAlpha4b2 dtMin (stepModel dtMin n pDA pG puff ps).nicotine pDA ps
        ps.desensRateDA := rfl

theorem stepModel_poolGABA (dtMin n : ℝ) (pDA pG : ReceptorPool) (puff : Bool)
    (ps : ModelParams) :
    (stepModel dtMin n pDA pG puff ps).poolGABA =
      stepAlpha4b2 dtMin (stepModel dtMin n pDA pG puff ps).nicotine pG ps
        ps.desensRateGABA := rfl

theorem stepModel_gaba (dtMin n : ℝ) (pDA pG : ReceptorPool) (puff : Bool)
    (ps : ModelParams) :
    (stepModel dtMin n pDA pG puff ps).gaba =
      clamp01 (0.25 + 0.95 * (stepModel dtMin n pDA pG puff ps).poolGABA.activado -
        0.85 * (stepModel dtMin n pDA pG puff ps).poolGABA.desens) := rfl

theorem stepModel_indirect (dtMin n : ℝ) (pDA pG : ReceptorPool) (puff : Bool)
    (ps : ModelParams) :
    (stepModel dtMin n pDA pG puff ps).indirect =
      clamp01 (0.15 + 0.9 * (1 - (stepModel dtMin n pDA pG puff ps).gaba)) := rfl

theorem stepModel_da (dtMin n : ℝ) (pDA pG : ReceptorPool) (puff : Bool)
    (ps : ModelParams) :
    (stepModel dtMin n pDA pG puff ps).da =
      clamp01 (0.1 + 0.75 * (stepModel dtMin n pDA pG puff ps).direct +
        0.35 * (stepModel dtMin n pDA pG puff ps).indirect) := rfl

theorem stepModel_achDrive_ex (dtMin n : ℝ) (pDA pG : ReceptorPool) (puff : Bool)
    (ps : ModelParams) :
    ∃ y, (stepModel dtMin n pDA pG puff ps).achDrive = clamp01 y := ⟨_, rfl⟩

theorem stepModel_gluDrive_ex (dtMin n : ℝ) (pDA pG : ReceptorPool) (puff : Bool)
    (ps : ModelParams) :
    ∃ y, (stepModel dtMin n pDA pG puff ps).gluDrive = clamp01 y := ⟨_, rfl⟩

theorem stepModel_direct_ex (dtMin n : ℝ) (pDA pG : ReceptorPool) (puff : Bool)
    (ps : ModelParams) :
    ∃ y, (stepModel dtMin n pDA pG puff ps).direct = clamp01 y := ⟨_, rfl⟩

theorem doPuff_nicotine (ps : ModelParams) (s : SimState) :
    (doPuff ps s).nicotine =
      (stepModel 0 s.nicotine s.poolDA s.poolGABA true ps).nicotine := rfl

theorem doPuff_poolDA (ps : ModelParams) (s : SimState) :
    (doPuff ps s).poolDA =
      (stepModel 0 s.nicotine s.poolDA s.poolGABA true ps).poolDA := rfl

theorem doPuff_poolGABA (ps : ModelParams) (s : SimState) :
    (doPuff ps s).poolGABA =
      (stepModel 0 s.nicotine s.poolDA s.poolGABA true ps).poolGABA := rfl

end StepModelLemmas

section BatchLemmas

theorem batchStep_t (ps : ModelParams) (acc : BatchAcc) :
    (batchStep ps acc).t = acc.t + 1 := rfl

theorem batchStep_nic (ps : ModelParams) (acc : BatchAcc) :
    (batchStep ps acc).nic =
      (stepModel 1 acc.nic acc.pDA acc.pG false ps).nicotine := rfl

theorem batchStep_pDA (ps : ModelParams) (acc : BatchAcc) :
    (batchStep ps acc).pDA =
      (stepModel 1 acc.nic acc.pDA acc.pG false ps).poolDA := rfl

theorem batchStep_pG (ps : ModelParams) (acc : BatchAcc) :
    (batchStep ps acc).pG =
      (stepModel 1 acc.nic acc.pDA acc.pG false ps).poolGABA := rfl

theorem batchStep_map_t (ps : ModelParams) (acc : BatchAcc) :
    (batchStep ps acc).newTrace.map TracePoint.t =
      acc.newTrace.map TracePoint.t ++ [acc.t + 1] := by
  unfold batchStep
  simp

theorem batchStep_map_puff (ps : ModelParams) (acc : BatchAcc) :
    (batchStep ps acc).newTrace.map TracePoint.puff =
      acc.newTrace.map TracePoint.puff ++ [true] := by
  unfold batchStep
  simp

theorem batchRun_t (ps : ModelParams) (n : ℕ) (acc : BatchAcc) :
    (batchRun ps n acc).t = acc.t + n := by
  induction n with
  | zero => simp [batchRun]
  | succ k ih =>
    show (batchStep ps (batchRun ps k acc)).t = _
    rw [batchStep_t, ih]
    push_cast
    ring

theorem batchRun_map_t (ps : ModelParams) (n : ℕ) (acc : BatchAcc) :
    (batchRun ps n acc).newTrace.map TracePoint.t =
      acc.newTrace.map TracePoint.t ++
        (List.range n).map (fun i : ℕ => acc.t + (i + 1 : ℕ)) := by
  induction n with
  | zero => simp [batchRun]
  | succ k ih =>
    show (batchStep ps (batchRun ps k acc)).newTrace.map TracePoint.t = _
    rw [batchStep_map_t, ih, batchRun_t, List.range_succ]
    have he : acc.t + (k : ℕ) + 1 = acc.t + ((k + 1 : ℕ) : ℝ) := by
      push_cast
      ring
    simp [he]

theorem batchRun_map_puff (ps : ModelParams) (n : ℕ) (acc : BatchAcc) :
    (batchRun ps n acc).newTrace.map TracePoint.puff =
      acc.newTrace.map TracePoint.puff ++ List.replicate n true := by
  induction n with
  | zero => simp [batchRun]
  | succ k ih =>
    show (batchStep ps (batchRun ps k acc)).newTrace.map TracePoint.puff = _
    rw [batchStep_map_puff, ih]
    simp [List.replicate_succ']

theorem batchRun_length (ps : ModelParams) (n : ℕ) (acc : BatchAcc) :
    (batchRun ps n acc).newTrace.length = acc.newTrace.length + n := by
  have h := congrArg List.length (batchRun_map_t ps n acc)
  simpa using h

theorem sliceLast_length_le (n : ℕ) (l : List TracePoint) :
    (sliceLast n l).length ≤ n := by
  unfold sliceLast
  rw [List.length_drop]
  omega

end BatchLemmas

section DecayLemmas

theorem cDecay_pos : 0 < cDecay := Real.rpow_pos_of_pos (by norm_num) _

theorem cDecay_le_one : cDecay ≤ 1 :=
  Real.rpow_le_one (by norm_num) (by norm_num) (by norm_num)

/-- At default parameters, a unit-minute no-puff step from a low nicotine
level multiplies it by the per-minute decay factor (no clamping occurs). -/
theorem stepModel_nic_low (n : ℝ) (pDA pG : ReceptorPool)
    (h0 : 0 ≤ n) (h1 : n ≤ 0.02) :
    (stepModel 1 n pDA pG false DEFAULT_PARAMS).nicotine = n * cDecay := by
  rw [stepModel_nicotine]
  simp only [Bool.false_eq_true, if_false]
  have hhl : (1 : ℝ) / DEFAULT_PARAMS.nicotineHalfLifeMin = 1 / 120 := by
    norm_num [DEFAULT_PARAMS]
  rw [hhl]
  rw [show (0.5 : ℝ) ^ ((1 : ℝ) / 120) = cDecay from rfl]
  exact clamp01_eq_self (mul_nonneg h0 cDecay_pos.le)
    (by nlinarith [cDecay_le_one, cDecay_pos])

/-- Closed-form trajectory of the `advance60` loop from the abstinence
preset: nicotine decays geometrically and both pools are in pure recovery,
the desensitized fraction shrinking by the factor 44/45 every minute. -/
theorem batchRun_abstinence (n : ℕ) :
    (batchRun DEFAULT_PARAMS n (initAcc abstinenceState)).nic = 0.02 * cDecay ^ n ∧
    (batchRun DEFAULT_PARAMS n (initAcc abstinenceState)).pDA =
      { basal := 0.95 - 0.6 * (44 / 45 : ℝ) ^ n
        activado := 0.05
        desens := 0.6 * (44 / 45 : ℝ) ^ n } ∧
    (batchRun DEFAULT_PARAMS n (initAcc abstinenceState)).pG =
      { basal := 0.95 - 0.55 * (44 / 45 : ℝ) ^ n
        activado := 0.05
        desens := 0.55 * (44 / 45 : ℝ) ^ n } := by
  induction n with
  | zero =>
    refine ⟨?_, ?_, ?_⟩
    · show abstinenceState.nicotine = _
      norm_num [abstinenceState]
    · show normalizePool { basal := 0.35, activado := 0.05, desens := 0.6 } = _
      rw [normalizePool_sum_one (by norm_num)]
      norm_num
    · show normalizePool { basal := 0.4, activado := 0.05, desens := 0.55 } = _
      rw [normalizePool_sum_one (by norm_num)]
      norm_num
  | succ k ih =>
    obtain ⟨ihn, ihDA, ihG⟩ := ih
    have hc0 := cDecay_pos
    have hc1 := cDecay_le_one
    have hck : (0:ℝ) ≤ cDecay ^ k := by positivity
    have hck1 : cDecay ^ k ≤ 1 := pow_le_one₀ hc0.le hc1
    have hnic0 : 0 ≤ (batchRun DEFAULT_PARAMS k (initAcc abstinenceState)).nic := by
      rw [ihn]; positivity
    have hnic1 : (batchRun DEFAULT_PARAMS k (initAcc abstinenceState)).nic ≤ 0.02 := by
      rw [ihn]; nlinarith
    have hlow : (batchRun DEFAULT_PARAMS k (initAcc abstinenceState)).nic * cDecay < 0.135 := by
      nlinarith
    refine ⟨?_, ?_, ?_⟩
    · show (batchStep DEFAULT_PARAMS (batchRun DEFAULT_PARAMS k (initAcc abstinenceState))).nic = _
      rw [batchStep_nic, stepModel_nic_low _ _ _ hnic0 hnic1, ihn, pow_succ]
      ring
    · show (batchStep DEFAULT_PARAMS (batchRun DEFAULT_PARAMS k (initAcc abstinenceState))).pDA = _
      rw [batchStep_pDA, stepModel_poolDA, stepModel_nic_low _ _ _ hnic0 hnic1, ihDA]
      rw [stepAlpha4b2_recovery _ _ _ hlow (by dsimp only; ring)]
      dsimp only
      simp only [ReceptorPool.mk.injEq]
      refine ⟨by rw [pow_succ]; ring, trivial, by rw [pow_succ]; ring⟩
    · show (batchStep DEFAULT_PARAMS (batchRun DEFAULT_PARAMS k (initAcc abstinenceState))).pG = _
      rw [batchStep_pG, stepModel_poolGABA, stepModel_nic_low _ _ _ hnic0 hnic1, ihG]
      rw [stepAlpha4b2_recovery _ _ _ hlow (by dsimp only; ring)]
      dsimp only
      simp only [ReceptorPool.mk.injEq]
      refine ⟨by rw [pow_succ]; ring, trivial, by rw [pow_succ]; ring⟩

end DecayLemmas

section TickLemmas

/-- After any continuous-mode tick, the trace ends in the just-appended
point and every retained point is within the rolling 60-minute window. -/
theorem tick_window_retention (ps : ModelParams) (s : SimState) (dtMin : ℝ)
    (puffNow : Bool) :
    ∃ lst, ((tick ps s dtMin puffNow).trace).getLast? = some lst ∧
      ∀ q ∈ (tick ps s dtMin puffNow).trace, lst.t - 60 ≤ q.t := by
  have hpt : (s.trace ++ [tickPoint ps s dtMin puffNow]).getLast? =
      some (tickPoint ps s dtMin puffNow) := List.getLast?_concat _
  refine ⟨tickPoint ps s dtMin puffNow, ?_, ?_⟩
  · unfold tick
    dsimp only
    simp only [hpt, Option.map_some', Option.getD_some]
    rw [List.filter_append]
    have hkeep : (List.filter
        (fun p => decide ((tickPoint ps s dtMin puffNow).t - 60 ≤ p.t))
        [tickPoint ps s dtMin puffNow]) = [tickPoint ps s dtMin puffNow] := by
      simp only [List.filter_cons, List.filter_nil]
      rw [if_pos]
      exact decide_eq_true (by linarith)
    rw [hkeep]
    exact List.getLast?_concat _
  · intro q hq
    revert hq
    unfold tick
    dsimp only
    simp only [hpt, Option.map_some', Option.getD_some]
    intro hq
    have hdec := (List.mem_filter.mp hq).2
    exact of_decide_eq_true hdec

/-- The batch update truncates the trace to at most 900 points. -/
theorem advance60_trace_le (ps : ModelParams) (s : SimState) :
    ((advance60 ps s).trace).length ≤ 900 := by
  unfold advance60
  dsimp only
  exact sliceLast_length_le _ _

end TickLemmas

/-- Claim C1: every pool produced by `stepAlpha4b2` or `normalizePool` has
fraction sum exactly 1 (hence within any floating-point tolerance of 1),
and a non-positive raw sum resets the pool to pure basal. -/
theorem pool_sum_invariant :
    (∀ (dtMin nic : ℝ) (pool : ReceptorPool) (ps : ModelParams) (rate : ℝ),
      0 ≤ dtMin → 0 ≤ nic → nic ≤ 1 →
      (stepAlpha4b2 dtMin nic pool ps rate).basal +
        (stepAlpha4b2 dtMin nic pool ps rate).activado +
        (stepAlpha4b2 dtMin nic pool ps rate).desens = 1) ∧
    (∀ p : ReceptorPool,
      (normalizePool p).basal + (normalizePool p).activado +
        (normalizePool p).desens = 1) ∧
    (∀ p : ReceptorPool, p.basal + p.activado + p.desens ≤ 0 →
      normalizePool p = { basal := 1, activado := 0, desens := 0 }) :=
  ⟨fun dtMin nic pool ps rate _ _ _ => stepAlpha4b2_sum dtMin nic pool ps rate,
   normalizePool_sum, normalizePool_reset⟩

/-- Concrete instance of claim C1 at `dtMin = 1`, `nic = 1/2`, a pure basal
pool, default parameters, and at a pool with raw sum `-1 ≤ 0`. -/
theorem pool_sum_invariant_witness :
    ((stepAlpha4b2 1 (1/2) { basal := 1, activado := 0, desens := 0 }
        DEFAULT_PARAMS 0.03).basal +
      (stepAlpha4b2 1 (1/2) { basal := 1, activado := 0, desens := 0 }
        DEFAULT_PARAMS 0.03).activado +
      (stepAlpha4b2 1 (1/2) { basal := 1, activado := 0, desens := 0 }
        DEFAULT_PARAMS 0.03).desens = 1) ∧
    normalizePool { basal := -1, activado := 0, desens := 0 } =
      { basal := 1, activado := 0, desens := 0 } :=
  ⟨pool_sum_invariant.1 1 (1/2) _ DEFAULT_PARAMS 0.03 (by norm_num) (by norm_num)
      (by norm_num),
   pool_sum_invariant.2.2 _ (by norm_num)⟩

set_option maxRecDepth 4096 in
/-- Claim C2: `advance60` pushes exactly 60 new trace points, their `t`
values are `simMin + 1, simMin + 2, …, simMin + 60` (strictly increasing by
one minute), the final `simMin` is the prior `simMin` plus 60, and the new
buffer is the capped concatenation of the old buffer with those points. -/
theorem advance60_batch_exact (ps : ModelParams) (s : SimState) :
    (advance60Points ps s).length = 60 ∧
    (advance60Points ps s).map TracePoint.t =
      (List.range 60).map (fun i : ℕ => s.simMin + (i + 1 : ℕ)) ∧
    (advance60 ps s).simMin = s.simMin + 60 ∧
    (advance60 ps s).trace = sliceLast 900 (s.trace ++ advance60Points ps s) := by
  unfold advance60Points advance60
  dsimp only
  refine ⟨?_, ?_, ?_, rfl⟩
  · rw [batchRun_length]
    simp [initAcc]
  · rw [batchRun_map_t]
    simp [initAcc]
  · rw [batchRun_t]
    norm_num [initAcc]

/-- Claim C3 (code evaluation): although every one of the 60 steps inside
`advance60` is invoked with `puffNow = false`, each of the 60 pushed trace
points records `puff = true` — the source hardcodes the `puff` field. -/
theorem advance60_points_puff_true (ps : ModelParams) (s : SimState) :
    (advance60Points ps s).map TracePoint.puff = List.replicate 60 true := by
  unfold advance60Points
  rw [batchRun_map_puff]
  simp [initAcc]

/-- Claim C4 counterexample: a pool whose fractions do not sum to 1 is NOT
left unchanged by `doPuff` — it is renormalized, so the claim fails for the
pool `{basal 2, activado 0, desens 0}` (at nicotine 0, inside `[0,1]`). -/
theorem doPuff_pool_changed_cex :
    (doPuff DEFAULT_PARAMS
        { nicotine := 0
          poolDA := { basal := 2, activado := 0, desens := 0 }
          poolGABA := { basal := 1, activado := 0, desens := 0 }
          simMin := 0
          trace := [] }).poolDA ≠
      { basal := 2, activado := 0, desens := 0 } := by
  have h : (doPuff DEFAULT_PARAMS
        { nicotine := 0
          poolDA := { basal := 2, activado := 0, desens := 0 }
          poolGABA := { basal := 1, activado := 0, desens := 0 }
          simMin := 0
          trace := [] }).poolDA =
      normalizePool { basal := 2, activado := 0, desens := 0 } := by
    rw [doPuff_poolDA, stepModel_poolDA, stepAlpha4b2_zero_dt]
  rw [h]
  unfold normalizePool
  norm_num

/-- Claim C4 (amended): for nicotine in `[0,1]`, a positive half-life, and
pools whose fractions sum to 1, `doPuff` yields nicotine exactly
`clamp01(n + 0.25)` and leaves both pools unchanged. -/
theorem doPuff_bolus (ps : ModelParams) (s : SimState)
    (h0 : 0 ≤ s.nicotine) (h1 : s.nicotine ≤ 1)
    (hh : 0 < ps.nicotineHalfLifeMin)
    (hDA : s.poolDA.basal + s.poolDA.activado + s.poolDA.desens = 1)
    (hG : s.poolGABA.basal + s.poolGABA.activado + s.poolGABA.desens = 1) :
    (doPuff ps s).nicotine = clamp01 (s.nicotine + 0.25) ∧
    (doPuff ps s).poolDA = s.poolDA ∧
    (doPuff ps s).poolGABA = s.poolGABA := by
  have hdec : (0.5 : ℝ) ^ ((0:ℝ) / ps.nicotineHalfLifeMin) = 1 := by
    rw [zero_div, Real.rpow_zero]
  refine ⟨?_, ?_, ?_⟩
  · rw [doPuff_nicotine, stepModel_nicotine]
    simp only [if_true]
    rw [hdec, mul_one]
    exact clamp01_eq_self (clamp01_nonneg _) (clamp01_le_one _)
  · rw [doPuff_poolDA, stepModel_poolDA, stepAlpha4b2_zero_dt]
    exact normalizePool_sum_one hDA
  · rw [doPuff_poolGABA, stepModel_poolGABA, stepAlpha4b2_zero_dt]
    exact normalizePool_sum_one hG

/-- Concrete instance of amended claim C4 at the default initial state. -/
theorem doPuff_bolus_witness :
    (doPuff DEFAULT_PARAMS initialState).nicotine = clamp01 (0 + 0.25) ∧
    (doPuff DEFAULT_PARAMS initialState).poolDA = initialState.poolDA ∧
    (doPuff DEFAULT_PARAMS initialState).poolGABA = initialState.poolGABA :=
  doPuff_bolus DEFAULT_PARAMS initialState (by norm_num [initialState])
    (by norm_num [initialState]) (by norm_num [DEFAULT_PARAMS])
    (by norm_num [initialState]) (by norm_num [initialState])

/-- Claim C5: for any non-negative time delta and arbitrary inputs, all
seven fractional outputs of the step function lie in `[0,1]`. -/
theorem stepModel_outputs_unit_interval (dtMin n : ℝ) (pDA pG : ReceptorPool)
    (puff : Bool) (ps : ModelParams) (hdt : 0 ≤ dtMin) :
    (0 ≤ (stepModel dtMin n pDA pG puff ps).nicotine ∧
      (stepModel dtMin n pDA pG puff ps).nicotine ≤ 1) ∧
    (0 ≤ (stepModel dtMin n pDA pG puff ps).gaba ∧
      (stepModel dtMin n pDA pG puff ps).gaba ≤ 1) ∧
    (0 ≤ (stepModel dtMin n pDA pG puff ps).da ∧
      (stepModel dtMin n pDA pG puff ps).da ≤ 1) ∧
    (0 ≤ (stepModel dtMin n pDA pG puff ps).direct ∧
      (stepModel dtMin n pDA pG puff ps).direct ≤ 1) ∧
    (0 ≤ (stepModel dtMin n pDA pG puff ps).indirect ∧
      (stepModel dtMin n pDA pG puff ps).indirect ≤ 1) ∧
    (0 ≤ (stepModel dtMin n pDA pG puff ps).achDrive ∧
      (stepModel dtMin n pDA pG puff ps).achDrive ≤ 1) ∧
    (0 ≤ (stepModel dtMin n pDA pG puff ps).gluDrive ∧
      (stepModel dtMin n pDA pG puff ps).gluDrive ≤ 1) := by
  obtain ⟨y1, e1⟩ := stepModel_achDrive_ex dtMin n pDA pG puff ps
  obtain ⟨y2, e2⟩ := stepModel_gluDrive_ex dtMin n pDA pG puff ps
  obtain ⟨y3, e3⟩ := stepModel_direct_ex dtMin n pDA pG puff ps
  refine ⟨⟨?_, ?_⟩, ⟨?_, ?_⟩, ⟨?_, ?_⟩, ⟨?_, ?_⟩, ⟨?_, ?_⟩, ⟨?_, ?_⟩, ⟨?_, ?_⟩⟩ <;>
    simp only [stepModel_nicotine, stepModel_gaba, stepModel_da,
      stepModel_indirect, e1, e2, e3] <;>
    first
    | exact clamp01_nonneg _
    | exact clamp01_le_one _

/-- Concrete instance of claim C5 at `dtMin = 1` from the default state. -/
theorem stepModel_outputs_unit_interval_witness :
    0 ≤ (stepModel 1 0 { basal := 1, activado := 0, desens := 0 }
      { basal := 1, activado := 0, desens := 0 } false DEFAULT_PARAMS).da ∧
    (stepModel 1 0 { basal := 1, activado := 0, desens := 0 }
      { basal := 1, activado := 0, desens := 0 } false DEFAULT_PARAMS).da ≤ 1 :=
  (stepModel_outputs_unit_interval 1 0 _ _ false DEFAULT_PARAMS
    (by norm_num)).2.2.1

/-- Claim C6 counterexample: the transfer terms are NOT clamped — at
`dtMin = 8`, nicotine 1 and a pure basal pool with default parameters the
activation flux removes more than the whole basal fraction, and the
returned (renormalized) pool has a strictly negative basal fraction. -/
theorem stepAlpha4b2_negative_cex :
    (stepAlpha4b2 8 1 { basal := 1, activado := 0, desens := 0 }
      DEFAULT_PARAMS 0.03).basal < 0 := by
  unfold stepAlpha4b2 DEFAULT_PARAMS normalizePool clamp01
  norm_num

/-- Claim C6 (amended): the source contains no per-term clamping, so
non-negativity of the returned fractions holds only when every per-minute
transfer ratio times `dtMin` is at most 1: `dtMin * 0.25 ≤ 1`,
`dtMin * desensRate ≤ 1` and `dtMin ≤ max 1 desensWindowMin` (all satisfied
at the call sites, where `dtMin ≤ 1` and the rates are below 1). -/
theorem stepAlpha4b2_nonneg (dtMin nic : ℝ) (pool : ReceptorPool)
    (ps : ModelParams) (rate : ℝ)
    (hdt : 0 ≤ dtMin) (hb : 0 ≤ pool.basal) (ha : 0 ≤ pool.activado)
    (hd : 0 ≤ pool.desens) (hrate : 0 ≤ rate)
    (hdt4 : dtMin * 0.25 ≤ 1) (hdtr : dtMin * rate ≤ 1)
    (hdtw : dtMin ≤ max 1 ps.desensWindowMin) :
    0 ≤ (stepAlpha4b2 dtMin nic pool ps rate).basal ∧
    0 ≤ (stepAlpha4b2 dtMin nic pool ps rate).activado ∧
    0 ≤ (stepAlpha4b2 dtMin nic pool ps rate).desens := by
  have hM : (1:ℝ) ≤ max 1 ps.desensWindowMin := le_max_left _ _
  have hM0 : (0:ℝ) < max 1 ps.desensWindowMin := by linarith
  simp only [stepAlpha4b2]
  set f1 := (if nic > ps.actThreshold then
      0.25 * clamp01 ((nic - ps.actThreshold) / (1 - ps.actThreshold)) else 0) with hf1def
  set f2 := (if nic > ps.actThreshold then rate else 0) with hf2def
  set K := (if nic < ps.actThreshold * 0.9 then 1 / max 1 ps.desensWindowMin
      else 1 / max 1 ps.desensWindowMin * 0.35) with hKdef
  have hf1 : 0 ≤ f1 := by
    rw [hf1def]
    split_ifs with h
    · exact mul_nonneg (by norm_num) (clamp01_nonneg _)
    · exact le_refl 0
  have hf2 : 0 ≤ f2 := by
    rw [hf2def]
    split_ifs with h
    · exact hrate
    · exact le_refl 0
  have hK : 0 ≤ K := by
    rw [hKdef]
    split_ifs with h
    · exact div_nonneg zero_le_one hM0.le
    · exact mul_nonneg (div_nonneg zero_le_one hM0.le) (by norm_num)
  have h1 : f1 * dtMin ≤ 1 := by
    rw [hf1def]
    split_ifs with h
    · nlinarith [clamp01_nonneg ((nic - ps.actThreshold) / (1 - ps.actThreshold)),
        clamp01_le_one ((nic - ps.actThreshold) / (1 - ps.actThreshold))]
    · nlinarith
  have h2 : f2 * dtMin ≤ 1 := by
    rw [hf2def]
    split_ifs with h
    · nlinarith
    · nlinarith
  have h3 : K * dtMin ≤ 1 := by
    have hdm : dtMin / max 1 ps.desensWindowMin ≤ 1 := (div_le_one hM0).mpr hdtw
    rw [hKdef]
    split_ifs with h
    · have he : 1 / max 1 ps.desensWindowMin * dtMin =
          dtMin / max 1 ps.desensWindowMin := by ring
      rw [he]
      exact hdm
    · have he : 1 / max 1 ps.desensWindowMin * 0.35 * dtMin =
          0.35 * (dtMin / max 1 ps.desensWindowMin) := by ring
      rw [he]
      nlinarith
  obtain ⟨hB, hA, hD⟩ := pool_flux_nonneg pool.basal pool.activado pool.desens
    f1 f2 K dtMin hb ha hd hf1 hf2 hK hdt h1 h2 h3
  exact normalizePool_nonneg _ hB hA hD

/-- Concrete instance of amended claim C6 at `dtMin = 1` and a mixed pool
with default parameters. -/
theorem stepAlpha4b2_nonneg_witness :
    0 ≤ (stepAlpha4b2 1 (1/2) { basal := 0.5, activado := 0.3, desens := 0.2 }
        DEFAULT_PARAMS 0.03).basal ∧
    0 ≤ (stepAlpha4b2 1 (1/2) { basal := 0.5, activado := 0.3, desens := 0.2 }
        DEFAULT_PARAMS 0.03).activado ∧
    0 ≤ (stepAlpha4b2 1 (1/2) { basal := 0.5, activado := 0.3, desens := 0.2 }
        DEFAULT_PARAMS 0.03).desens :=
  stepAlpha4b2_nonneg 1 (1/2) _ DEFAULT_PARAMS 0.03 (by norm_num) (by norm_num)
    (by norm_num) (by norm_num) (by norm_num) (by norm_num) (by norm_num)
    (le_max_left 1 _)

/-- Claim C7: one no-puff step of length `nicotineHalfLifeMin` (positive)
halves any starting nicotine level in `[0,1]` — exactly, in the real
model. -/
theorem nicotine_halflife_step (n : ℝ) (pDA pG : ReceptorPool) (ps : ModelParams)
    (h0 : 0 ≤ n) (h1 : n ≤ 1) (hh : 0 < ps.nicotineHalfLifeMin) :
    (stepModel ps.nicotineHalfLifeMin n pDA pG false ps).nicotine = n / 2 := by
  rw [stepModel_nicotine]
  simp only [Bool.false_eq_true, if_false]
  rw [div_self hh.ne', Real.rpow_one]
  rw [clamp01_eq_self (by linarith) (by linarith)]
  ring

/-- Concrete instance of claim C7 at nicotine 1 with default parameters. -/
theorem nicotine_halflife_step_witness :
    (stepModel DEFAULT_PARAMS.nicotineHalfLifeMin 1
      { basal := 1, activado := 0, desens := 0 }
      { basal := 1, activado := 0, desens := 0 } false DEFAULT_PARAMS).nicotine = 1 / 2 :=
  nicotine_halflife_step 1 _ _ DEFAULT_PARAMS (by norm_num) (by norm_num)
    (by norm_num [DEFAULT_PARAMS])

set_option maxRecDepth 4096 in
/-- Claim C8: from the abstinence preset with default parameters, one
`advance60` batch strictly lowers the desensitized fraction of both the DA
and the GABA pools. -/
theorem abstinence_recovery :
    (advance60 DEFAULT_PARAMS abstinenceState).poolDA.desens <
      abstinenceState.poolDA.desens ∧
    (advance60 DEFAULT_PARAMS abstinenceState).poolGABA.desens <
      abstinenceState.poolGABA.desens := by
  obtain ⟨-, hDA, hG⟩ := batchRun_abstinence 60
  have habsDA : abstinenceState.poolDA =
      { basal := 0.35, activado := 0.05, desens := 0.6 } := by
    show normalizePool _ = _
    rw [normalizePool_sum_one (by norm_num)]
  have habsG : abstinenceState.poolGABA =
      { basal := 0.4, activado := 0.05, desens := 0.55 } := by
    show normalizePool _ = _
    rw [normalizePool_sum_one (by norm_num)]
  have hq1 : ((44:ℝ)/45) ^ (60:ℕ) < 1 :=
    pow_lt_one₀ (by norm_num) (by norm_num) (by norm_num)
  have hq0 : (0:ℝ) < ((44:ℝ)/45) ^ (60:ℕ) := by positivity
  constructor
  · have hA : (advance60 DEFAULT_PARAMS abstinenceState).poolDA =
        (batchRun DEFAULT_PARAMS 60 (initAcc abstinenceState)).pDA := rfl
    rw [hA, hDA, habsDA]
    dsimp only
    nlinarith
  · have hB : (advance60 DEFAULT_PARAMS abstinenceState).poolGABA =
        (batchRun DEFAULT_PARAMS 60 (initAcc abstinenceState)).pG := rfl
    rw [hB, hG, habsG]
    dsimp only
    nlinarith

/-- Claim C9: after any continuous-mode tick every retained trace point is
within 60 minutes of the latest point, and after any `advance60` batch the
buffer holds at most 900 points. -/
theorem trace_retention :
    (∀ (ps : ModelParams) (s : SimState) (dtMin : ℝ) (puffNow : Bool),
      ∃ lst, ((tick ps s dtMin puffNow).trace).getLast? = some lst ∧
        ∀ q ∈ (tick ps s dtMin puffNow).trace, lst.t - 60 ≤ q.t) ∧
    (∀ (ps : ModelParams) (s : SimState), ((advance60 ps s).trace).length ≤ 900) :=
  ⟨tick_window_retention, advance60_trace_le⟩

/-- Concrete instance of claim C9 for one tick from the default state. -/
theorem trace_retention_witness :
    ∃ lst, ((tick DEFAULT_PARAMS initialState 1 false).trace).getLast? = some lst ∧
      ∀ q ∈ (tick DEFAULT_PARAMS initialState 1 false).trace, lst.t - 60 ≤ q.t :=
  trace_retention.1 DEFAULT_PARAMS initialState 1 false

/-- Claim C10: for any non-negative time delta and arbitrary inputs, the
step function's `indirect` output is at least 0.15 and its `da` output is
at least `0.1 + 0.35 * 0.15 = 0.1525`, so simulated dopamine never reaches
zero. -/
theorem da_positive_floor (dtMin n : ℝ) (pDA pG : ReceptorPool) (puff : Bool)
    (ps : ModelParams) (hdt : 0 ≤ dtMin) :
    0.15 ≤ (stepModel dtMin n pDA pG puff ps).indirect ∧
    0.1525 ≤ (stepModel dtMin n pDA pG puff ps).da := by
  have hg1 : (stepModel dtMin n pDA pG puff ps).gaba ≤ 1 := by
    rw [stepModel_gaba]
    exact clamp01_le_one _
  have hind : 0.15 ≤ (stepModel dtMin n pDA pG puff ps).indirect := by
    rw [stepModel_indirect]
    exact le_clamp01 (by norm_num) (by linarith)
  obtain ⟨y, hy⟩ := stepModel_direct_ex dtMin n pDA pG puff ps
  have hdir : 0 ≤ (stepModel dtMin n pDA pG puff ps).direct := by
    rw [hy]
    exact clamp01_nonneg _
  refine ⟨hind, ?_⟩
  rw [stepModel_da]
  exact le_clamp01 (by norm_num) (by linarith)

/-- Concrete instance of claim C10 at `dtMin = 0` from the default state. -/
theorem da_positive_floor_witness :
    0.15 ≤ (stepModel 0 0 { basal := 1, activado := 0, desens := 0 }
      { basal := 1, activado := 0, desens := 0 } false DEFAULT_PARAMS).indirect ∧
    0.1525 ≤ (stepModel 0 0 { basal := 1, activado := 0, desens := 0 }
      { basal := 1, activado := 0, desens := 0 } false DEFAULT_PARAMS).da :=
  da_positive_floor 0 0 _ _ false DEFAULT_PARAMS (by norm_num)
